import Mathlib

/-!
Verification model of the HelixDB codebase-index core (Rust sources:
`ingestion.rs`, `updater.rs`, `utils.rs`, `main.rs`).

The remote index is modelled by the trace of HTTP calls the core issues and
by a fresh-id counter standing for the server-assigned ids.  Parallel
`par_iter` loops are modelled by their sequential schedule: the shared
atomic `order_counter` hands the i-th sibling the value `i + 1`, which is
the deterministic instance of the completion-order race.  Remote calls are
modelled on their success path except where a claim is about failure, in
which case an explicit success/failure oracle is threaded in.  Text
payloads are omitted from calls: they are the source slice determined by
the recorded `start_byte`/`end_byte`.
-/

namespace CodebaseIndex

/-- A concrete syntax-tree node as delivered by the external tree-sitter
parser: kind string, byte span, ordered children. -/
inductive TSNode : Type where
  | mk (kind : String) (startB endB : Nat) (children : List TSNode)

def TSNode.kind : TSNode → String
  | .mk k _ _ _ => k

def TSNode.startB : TSNode → Nat
  | .mk _ s _ _ => s

def TSNode.endB : TSNode → Nat
  | .mk _ _ e _ => e

def TSNode.children : TSNode → List TSNode
  | .mk _ _ _ cs => cs

/-- The `index-types.json` retention policy: file extension ↦ list of
retained node kinds (possibly the sentinel "ALL"). -/
def Policy := List (String × List String)

/-- `serde_json::Value::get` on the policy object. -/
def policyGet (pol : Policy) (key : String) : Option (List String) :=
  (List.find? (fun p => p.1 == key) pol).map (·.2)

/-- Extension alias normalization, from `process_entity`
(ingestion.rs lines 514-522). -/
def normalizeExt (ext : String) : String :=
  if ext == "cc" || ext == "cxx" then "cpp"
  else if ext == "h" then "c"
  else if ext == "js" || ext == "jsx" then "js"
  else ext

/-- Retention test of `process_entity` (ingestion.rs lines 527-528):
kind listed, or the sentinel "ALL" listed. -/
def retains (types : List String) (kind : String) : Bool :=
  types.any (fun s => s == kind) || types.any (fun s => s == "ALL")

/-- One HTTP call issued to the remote index (or an embedding-job
submission to the worker channel). -/
inductive Call : Type where
  | createRoot (name : String)
  | createSuperFolder (name parentId : String)
  | createSubFolder (name parentId : String)
  | createSuperFile (name ext parentId : String)
  | createFile (name ext parentId : String)
  | createSuperEntity (fileId kind : String) (startB endB order : Nat)
  | createSubEntity (parentId kind : String) (startB endB order : Nat)
  | submitEmbedJob (entityId : String)
  | getRootById (rootId : String)
  | getRootFolders (rootId : String)
  | getRootFiles (rootId : String)
  | getSubFolders (folderId : String)
  | getFolderFiles (folderId : String)
  | getFile (fileId : String)
  | getFileEntities (fileId : String)
  | getSubEntities (entityId : String)
  | updateFile (fileId : String) (setsExtractedAt : Bool)
  | deleteFolder (folderId : String)
  | deleteFile (fileId : String)
  | deleteSuperEntity (entityId : String)
  | deleteSubEntity (entityId : String)
deriving DecidableEq

/-- Whether a call mutates remote state (the `get*` endpoints are pure
queries). -/
def Call.isMutating : Call → Bool
  | .getRootById _ | .getRootFolders _ | .getRootFiles _ | .getSubFolders _
  | .getFolderFiles _ | .getFile _ | .getFileEntities _ | .getSubEntities _ => false
  | _ => true

/-- Server-assigned fresh id, numbered by a counter. -/
def freshId (n : Nat) : String := "#" ++ toString n

mutual
/-- Model of `process_entity` (ingestion.rs lines 473-640).  `order` is the
value drawn from the parent's shared counter.  The Python special case
(lines 498-511) reparents a non-empty "block"'s children one level up; the
general case normalizes the extension, consults the policy and, when the
kind is retained, creates the entity and recurses into its children with a
freshly scoped order counter. -/
def processEntity (pol : Policy) (ext : String) (node : TSNode) (parentId : String)
    (isSuper : Bool) (order : Nat) (nid : Nat) : List Call × Nat :=
  match node with
  | .mk kind s e cs =>
    if ext == "py" && kind == "block" && !cs.isEmpty then
      processSiblings pol ext cs parentId 1 nid
    else
      match policyGet pol (normalizeExt ext) with
      | none => ([], nid)
      | some types =>
        if retains types kind then
          let eid := freshId nid
          let c := if isSuper then Call.createSuperEntity parentId kind s e order
                   else Call.createSubEntity parentId kind s e order
          let (rest, nid1) := processSiblings pol ext cs eid 1 (nid + 1)
          (c :: rest, nid1)
        else ([], nid)

/-- Sequential schedule of a sibling group's parallel loop: the i-th
sibling draws `order + i` from the shared counter, whether or not it is
retained. -/
def processSiblings (pol : Policy) (ext : String) (cs : List TSNode) (parentId : String)
    (order : Nat) (nid : Nat) : List Call × Nat :=
  match cs with
  | [] => ([], nid)
  | c :: rest =>
    let (t1, nid1) := processEntity pol ext c parentId false order nid
    let (t2, nid2) := processSiblings pol ext rest parentId (order + 1) nid1
    (t1 ++ t2, nid2)
end

/-- The pre-creation pass of `ingest_entities` (ingestion.rs lines
379-458): looks up the policy under the RAW extension, and when the list
has an element other than "ALL" and contains the node's kind, creates a
super entity (and chunks its text; the embedding submission is commented
out in the source). -/
def prePass (pol : Policy) (ext : String) (node : TSNode) (fileId : String)
    (order : Nat) (nid : Nat) : List Call × Nat :=
  match policyGet pol ext with
  | none => ([], nid)
  | some types =>
    if types.any (fun s => !(s == "ALL")) && types.any (fun s => s == node.kind) then
      ([Call.createSuperEntity fileId node.kind node.startB node.endB order], nid + 1)
    else ([], nid)

/-- Model of `ingest_entities` (ingestion.rs lines 343-470): each top-level
child draws one order value from the shared counter, runs the pre-creation
pass, then `process_entity` with `is_super = true` and the same order. -/
def ingestSiblings (pol : Policy) (ext : String) (fileId : String) (cs : List TSNode)
    (order : Nat) (nid : Nat) : List Call × Nat :=
  match cs with
  | [] => ([], nid)
  | c :: rest =>
    let (t0, nid0) := prePass pol ext c fileId order nid
    let (t1, nid1) := processEntity pol ext c fileId true order nid0
    let (t2, nid2) := ingestSiblings pol ext fileId rest (order + 1) nid1
    (t0 ++ t1 ++ t2, nid2)

/-- Orders carried by `createSuperEntity` calls in a trace. -/
def superOrders (t : List Call) : List Nat :=
  t.filterMap fun c => match c with
    | .createSuperEntity _ _ _ _ o => some o
    | _ => none

/-- Number of `createSuperEntity` calls in a trace. -/
def superCreateCount (t : List Call) : Nat := (superOrders t).length

/-- Embedding jobs submitted in a trace (every submission site in the
source is commented out, so no constructor of the model ever emits one). -/
def embedJobs (t : List Call) : List Call :=
  t.filter fun c => match c with
    | .submitEmbedJob _ => true
    | _ => false

/-! ## Remote state for deletion and update

`queries.rs` (the `get_*` listing helpers used by `utils.rs` and
`updater.rs`) is not among the provided sources; its listings are modelled
from the spec: the remote index can list a folder's immediate subfolders
and files (with `extracted_at`), a file's top-level entities and an
entity's sub-entities.  The remote hierarchy is therefore given to the
model as a finite tree. -/

/-- A remotely stored entity with its sub-entities. -/
inductive REnt : Type where
  | mk (id : String) (subs : List REnt)

def REnt.id : REnt → String
  | .mk i _ => i

def REnt.subs : REnt → List REnt
  | .mk _ s => s

/-- A remotely stored file: id, name, `extracted_at` (seconds), and its
top-level entities. -/
structure RFileT : Type where
  id : String
  name : String
  extractedAt : Int
  ents : List REnt

/-- A remotely stored folder with its subtree. -/
inductive RFolderT : Type where
  | mk (id name : String) (subs : List RFolderT) (files : List RFileT)

def RFolderT.id : RFolderT → String
  | .mk i _ _ _ => i

def RFolderT.name : RFolderT → String
  | .mk _ n _ _ => n

def RFolderT.subs : RFolderT → List RFolderT
  | .mk _ _ s _ => s

def RFolderT.files : RFolderT → List RFileT
  | .mk _ _ _ f => f

mutual
/-- Model of `delete_entities(id, false)` (utils.rs lines 254-305): fetch
the entity's sub-entities, and for each one delete its own subtree first
and then the sub-entity record. -/
def delEntitiesSub : REnt → List Call
  | .mk i subs => Call.getSubEntities i :: delEntitiesSubList subs

def delEntitiesSubList : List REnt → List Call
  | [] => []
  | s :: rest => (delEntitiesSub s ++ [Call.deleteSubEntity s.id]) ++ delEntitiesSubList rest
end

/-- Model of `delete_entities(file_id, true)` (utils.rs lines 254-305):
fetch the file's top-level entities, and for each one delete its
sub-entity subtree first and then the super-entity record. -/
def delEntitiesFile (fileId : String) (ents : List REnt) : List Call :=
  Call.getFileEntities fileId ::
    (ents.map (fun e => delEntitiesSub e ++ [Call.deleteSuperEntity e.id])).flatten

/-- Model of one file's share of `delete_files` (utils.rs lines 224-252):
the `deleteFile` call is issued FIRST, then `delete_entities` runs on the
(already deleted) file id. -/
def deleteFileTrace (f : RFileT) : List Call :=
  Call.deleteFile f.id :: delEntitiesFile f.id f.ents

mutual
/-- Model of `delete_folder` (utils.rs lines 193-222): list and recursively
delete the subfolders, then list the files and run `delete_files` on all of
them, then delete the folder record itself. -/
def deleteFolderTrace (fo : RFolderT) : List Call :=
  match fo with
  | .mk i _ subs files =>
    Call.getSubFolders i ::
      (deleteFolderList subs ++
        (Call.getFolderFiles i :: (files.map deleteFileTrace).flatten ++ [Call.deleteFolder i]))

def deleteFolderList : List RFolderT → List Call
  | [] => []
  | fo :: rest => deleteFolderTrace fo ++ deleteFolderList rest
end

/-! ## Local directory tree and the file processor -/

/-- One local directory entry.  `readOk` is the oracle for whether reading
the file's bytes succeeds, `createOk` for whether the remote create-file
call succeeds; `tree` is the parsed root node's children as delivered by
the external parser; `mtime` is the modification time in seconds when
available. -/
inductive LEntry : Type where
  | dir (name : String) (entries : List LEntry)
  | file (name ext : String) (mtime : Option Int) (readOk : Bool)
      (tree : List TSNode) (createOk : Bool)

def LEntry.name : LEntry → String
  | .dir n _ => n
  | .file n _ _ _ _ _ => n

/-- The extensions for which `get_language` (utils.rs lines 166-179) has a
tree-sitter grammar. -/
def supportedExt (ext : String) : Bool :=
  ext == "py" || ext == "rs" || ext == "zig" || ext == "cpp" || ext == "cc" ||
    ext == "cxx" || ext == "c" || ext == "h" || ext == "ts" || ext == "tsx" ||
    ext == "js" || ext == "jsx"

/-- Model of `process_file` in ingestion.rs (lines 171-269).  A failed read
is swallowed (`return Ok(())`, lines 181-187); a failed create-file call is
returned as an error (lines 214-219); otherwise the file record is created
and, for supported extensions, `ingest_entities` runs on the parse tree. -/
def processFileI (pol : Policy) (name ext : String) (readOk : Bool) (tree : List TSNode)
    (createOk : Bool) (parentId : String) (isSuper : Bool) (nid : Nat) :
    (List Call × Nat) × Except String Unit :=
  if !readOk then (([], nid), .ok ())
  else
    let c := if isSuper then Call.createSuperFile name ext parentId
             else Call.createFile name ext parentId
    if supportedExt ext then
      if !createOk then (([c], nid), .error "Failed to create file")
      else
        let fid := freshId nid
        let (t, nid1) := ingestSiblings pol ext fid tree 1 (nid + 1)
        ((c :: t, nid1), .ok ())
    else
      -- unsupported: create the file as an opaque blob; `process_unsupported_file`
      -- issues no calls (its body is commented out in the source)
      if !createOk then (([c], nid), .error "Failed to create file")
      else (([c], nid + 1), .ok ())

mutual
/-- Model of one entry of `populate` (ingestion.rs lines 54-168): a
subdirectory gets a folder record created (endpoint picked by `is_super`)
and is recursed into with `is_super = false`; a file is handed to
`process_file`, whose error is discarded (`.ok()`, line 163) so siblings
always proceed. -/
def populateEntry (pol : Policy) (e : LEntry) (parentId : String)
    (isSuper : Bool) (nid : Nat) : List Call × Nat :=
  match e with
  | .dir n sub =>
    let c := if isSuper then Call.createSuperFolder n parentId
             else Call.createSubFolder n parentId
    let fid := freshId nid
    let (t1, nid1) := populateEntries pol sub fid false (nid + 1)
    (c :: t1, nid1)
  | .file n ext _ rOk tree cOk =>
    ((processFileI pol n ext rOk tree cOk parentId isSuper nid).1)

def populateEntries (pol : Policy) (es : List LEntry) (parentId : String)
    (isSuper : Bool) (nid : Nat) : List Call × Nat :=
  match es with
  | [] => ([], nid)
  | e :: rest =>
    let (t1, nid1) := populateEntry pol e parentId isSuper nid
    let (t2, nid2) := populateEntries pol rest parentId isSuper nid1
    (t1 ++ t2, nid2)
end

/-! ## The incremental updater (updater.rs) -/

def lookupFolder (fs : List RFolderT) (n : String) : Option RFolderT :=
  List.find? (fun f => f.name == n) fs

def lookupFile (fs : List RFileT) (n : String) : Option RFileT :=
  List.find? (fun f => f.name == n) fs

/-- Model of `update_file` (updater.rs lines 299-372).  A failed read skips
the file entirely.  For a supported extension the remote record's text and
`extracted_at` are updated, the existing entities are deleted and
`ingest_entities` re-runs on the fresh parse; for an unsupported extension
the `updateFile` payload carries only the text (NO `extracted_at`,
line 356) and no extraction runs. -/
def updateFileU (pol : Policy) (fid : String) (ext : String) (readOk : Bool)
    (tree : List TSNode) (ents : List REnt) (nid : Nat) : List Call × Nat :=
  if !readOk then ([], nid)
  else if supportedExt ext then
    let (tIng, nid1) := ingestSiblings pol ext fid tree 1 nid
    (Call.updateFile fid true :: (delEntitiesFile fid ents ++ tIng), nid1)
  else
    (Call.updateFile fid false :: delEntitiesFile fid ents, nid)

/-- Model of the known-file branch of `update`/`update_folder`
(updater.rs lines 116-141 and 243-267): re-extract iff the modification
time exceeds `extracted_at` by strictly more than the threshold; if the
modification time is unavailable, re-extract unconditionally. -/
def handleKnownFile (pol : Policy) (rf : RFileT) (ext : String) (mtime : Option Int)
    (readOk : Bool) (tree : List TSNode) (threshold : Nat) (nid : Nat) : List Call × Nat :=
  match mtime with
  | some m =>
    if m - rf.extractedAt > (threshold : Int) then
      updateFileU pol rf.id ext readOk tree rf.ents nid
    else ([], nid)
  | none => updateFileU pol rf.id ext readOk tree rf.ents nid

mutual
/-- One local entry of `update_folder`'s loop (updater.rs lines 202-276):
a known subdirectory recurses in diff mode (this inlines the body of
`update_folder`, lines 182-296); an UNKNOWN subdirectory is handed straight
to `populate` rooted at the CURRENT folder's id (line 219) — no folder
record is created for it first. -/
def updateEntryU (pol : Policy) (threshold : Nat) (e : LEntry)
    (rf : RFolderT) (nid : Nat) : List Call × Nat :=
  match e with
  | .dir n sub =>
    match lookupFolder rf.subs n with
    | some sf =>
      let (t, nid1) := updateEntriesU pol threshold sub sf nid
      let delF := deleteFolderList (sf.subs.filter
        (fun s => !(sub.any (fun e2 => e2.name == s.name))))
      let delFi := ((sf.files.filter
        (fun f => !(sub.any (fun e2 => e2.name == f.name)))).map deleteFileTrace).flatten
      (Call.getSubFolders sf.id :: Call.getFolderFiles sf.id :: (t ++ delF ++ delFi), nid1)
    | none => populateEntries pol sub rf.id false nid
  | .file n ext mt rOk tree cOk =>
    match lookupFile rf.files n with
    | some f => handleKnownFile pol f ext mt rOk tree threshold nid
    | none => ((processFileI pol n ext rOk tree cOk rf.id false nid).1)

def updateEntriesU (pol : Policy) (threshold : Nat) (es : List LEntry)
    (rf : RFolderT) (nid : Nat) : List Call × Nat :=
  match es with
  | [] => ([], nid)
  | e :: rest =>
    let (t1, nid1) := updateEntryU pol threshold e rf nid
    let (t2, nid2) := updateEntriesU pol threshold rest rf nid1
    (t1 ++ t2, nid2)
end

/-- Model of `update_folder` (updater.rs lines 173-297): list the remote
subfolders and files, process each local entry, then delete every remote
subfolder/file whose name has no local counterpart. -/
def updateFolderU (pol : Policy) (threshold : Nat) (es : List LEntry)
    (rf : RFolderT) (nid : Nat) : List Call × Nat :=
  let (t, nid1) := updateEntriesU pol threshold es rf nid
  let delF := deleteFolderList (rf.subs.filter
    (fun s => !(es.any (fun e => e.name == s.name))))
  let delFi := ((rf.files.filter
    (fun f => !(es.any (fun e => e.name == f.name)))).map deleteFileTrace).flatten
  (Call.getSubFolders rf.id :: Call.getFolderFiles rf.id :: (t ++ delF ++ delFi), nid1)

/-- The remote root as seen by `update`. -/
structure RemoteRoot : Type where
  rootName : Option String
  rootId : String
  folders : List RFolderT
  files : List RFileT

/-- The root-level per-entry loop of `update` (updater.rs lines 75-150):
like `updateEntriesU` but an unknown subdirectory is handed to `populate`
rooted at the ROOT's id with `is_super = true` (line 92), and files are
created/updated directly under the root. -/
def updateRootEntry (pol : Policy) (threshold : Nat) (e : LEntry)
    (rem : RemoteRoot) (nid : Nat) : List Call × Nat :=
  match e with
  | .dir n sub =>
    (match lookupFolder rem.folders n with
     | some sf => updateFolderU pol threshold sub sf nid
     | none => populateEntries pol sub rem.rootId true nid)
  | .file n ext mt rOk tree cOk =>
    (match lookupFile rem.files n with
     | some f => handleKnownFile pol f ext mt rOk tree threshold nid
     | none => ((processFileI pol n ext rOk tree cOk rem.rootId true nid).1))

def updateRootEntries (pol : Policy) (threshold : Nat) (es : List LEntry)
    (rem : RemoteRoot) (nid : Nat) : List Call × Nat :=
  match es with
  | [] => ([], nid)
  | e :: rest =>
    let (t1, nid1) := updateRootEntry pol threshold e rem nid
    let (t2, nid2) := updateRootEntries pol threshold rest rem nid1
    (t1 ++ t2, nid2)

/-- Model of `update` (updater.rs lines 27-171): fetch the remote root's
name and require it to equal the local root's base name before anything
else; then list root folders/files, process the local entries, and delete
every remote folder/file with no local counterpart. -/
def updateU (pol : Policy) (localName : String) (es : List LEntry)
    (rem : RemoteRoot) (threshold : Nat) (nid : Nat) : List Call × Except String Unit :=
  match rem.rootName with
  | none => ([Call.getRootById rem.rootId], .error "Root not found")
  | some rn =>
    if !(rn == localName) then
      ([Call.getRootById rem.rootId], .error "Root name does not match")
    else
      let (t, _) := updateRootEntries pol threshold es rem nid
      let delF := deleteFolderList (rem.folders.filter
        (fun s => !(es.any (fun e => e.name == s.name))))
      let delFi := ((rem.files.filter
        (fun f => !(es.any (fun e => e.name == f.name)))).map deleteFileTrace).flatten
      (Call.getRootById rem.rootId :: Call.getRootFolders rem.rootId ::
        Call.getRootFiles rem.rootId :: (t ++ delF ++ delFi), .ok ())

/-! ## The older copies in main.rs

main.rs carries its own `process_entity` / inline ingest loop / updater.
They differ from the ingestion.rs versions in two ways that matter here:
`process_entity` in main.rs consults the policy under the RAW extension
key (main.rs line 1205 — no cc/cxx/h/js/jsx normalization), and
`process_file` propagates a failed read with `?` (line 958). -/

mutual
/-- Model of `process_entity` in main.rs (lines 1157-1323): identical to
the ingestion.rs version except that the policy lookup uses the RAW
extension (line 1205) — there is no normalization step. -/
def processEntityM (pol : Policy) (ext : String) (node : TSNode) (parentId : String)
    (isSuper : Bool) (order : Nat) (nid : Nat) : List Call × Nat :=
  match node with
  | .mk kind s e cs =>
    if ext == "py" && kind == "block" && !cs.isEmpty then
      processSiblingsM pol ext cs parentId 1 nid
    else
      match policyGet pol ext with
      | none => ([], nid)
      | some types =>
        if retains types kind then
          let eid := freshId nid
          let c := if isSuper then Call.createSuperEntity parentId kind s e order
                   else Call.createSubEntity parentId kind s e order
          let (rest, nid1) := processSiblingsM pol ext cs eid 1 (nid + 1)
          (c :: rest, nid1)
        else ([], nid)

/-- Sequential schedule of main.rs `process_entity`'s child loop
(lines 1277-1315). -/
def processSiblingsM (pol : Policy) (ext : String) (cs : List TSNode) (parentId : String)
    (order : Nat) (nid : Nat) : List Call × Nat :=
  match cs with
  | [] => ([], nid)
  | c :: rest =>
    let (t1, nid1) := processEntityM pol ext c parentId false order nid
    let (t2, nid2) := processSiblingsM pol ext rest parentId (order + 1) nid1
    (t1 ++ t2, nid2)
end

/-- Model of the inline top-level entity loop of main.rs `process_file` /
`update_file` (lines 1024-1133 and 547-656): the same pre-creation pass as
ingestion.rs (raw-extension lookup) followed by the main.rs
`process_entity` with `is_super = true` and the same order. -/
def ingestSiblingsM (pol : Policy) (ext : String) (fileId : String) (cs : List TSNode)
    (order : Nat) (nid : Nat) : List Call × Nat :=
  match cs with
  | [] => ([], nid)
  | c :: rest =>
    let (t0, nid0) := prePass pol ext c fileId order nid
    let (t1, nid1) := processEntityM pol ext c fileId true order nid0
    let (t2, nid2) := ingestSiblingsM pol ext fileId rest (order + 1) nid1
    (t0 ++ t1 ++ t2, nid2)

/-! ## The older updater in main.rs (for the panic claim) -/

/-- Model of `process_file` in main.rs (lines 948-1154).  Identical to the
ingestion.rs version EXCEPT that a failed read is propagated with `?`
(line 958) instead of being swallowed, and the entity pipeline is the
main.rs one (raw-extension policy lookups). -/
def processFileM (pol : Policy) (name ext : String) (readOk : Bool) (tree : List TSNode)
    (createOk : Bool) (parentId : String) (isSuper : Bool) (nid : Nat) :
    (List Call × Nat) × Except String Unit :=
  if !readOk then (([], nid), .error "read failed")
  else
    let c := if isSuper then Call.createSuperFile name ext parentId
             else Call.createFile name ext parentId
    if supportedExt ext then
      if !createOk then (([c], nid), .error "Failed to create file")
      else
        let fid := freshId nid
        let (t, nid1) := ingestSiblingsM pol ext fid tree 1 (nid + 1)
        ((c :: t, nid1), .ok ())
    else
      if !createOk then (([c], nid), .error "Failed to create file")
      else (([c], nid + 1), .ok ())


/-- Model of `update_file` in main.rs (lines 502-669): a failed read
propagates an error (no calls); a supported file gets `updateFile` with
`extracted_at`, its entities deleted and the inline ingest loop re-run; an
unsupported file gets `updateFile` with text only and — unlike the
updater.rs version — no entity deletion. -/
def updateFileM (pol : Policy) (fid : String) (ext : String) (readOk : Bool)
    (tree : List TSNode) (ents : List REnt) (nid : Nat) : List Call × Nat :=
  if !readOk then ([], nid)
  else if supportedExt ext then
    let (tIng, nid1) := ingestSiblingsM pol ext fid tree 1 nid
    (Call.updateFile fid true :: (delEntitiesFile fid ents ++ tIng), nid1)
  else
    ([Call.updateFile fid false], nid)

/-- Model of the known-file branch of main.rs `update_folder` (lines
442-482): when the modification time is available, `getFile` fetches
`extracted_at` and the file is re-extracted iff strictly beyond the
threshold; when unavailable, `update_file` runs without the fetch. -/
def handleKnownFileM (pol : Policy) (rf : RFileT) (ext : String) (mtime : Option Int)
    (readOk : Bool) (tree : List TSNode) (threshold : Nat) (nid : Nat) : List Call × Nat :=
  match mtime with
  | some m =>
    let (t, nid1) :=
      if m - rf.extractedAt > (threshold : Int) then
        updateFileM pol rf.id ext readOk tree rf.ents nid
      else ([], nid)
    (Call.getFile rf.id :: t, nid1)
  | none => updateFileM pol rf.id ext readOk tree rf.ents nid

mutual
/-- One local entry of main.rs `update_folder`'s loop (lines 397-497).
`none` models a panic.  The directory branch (lines 406-416) unwraps the
subfolder map entry BEFORE the `contains_key` test, so an unknown local
subdirectory panics; consequently the `contains_key` test is always true
afterwards and the `populate` branch at line 415 is dead code, which is why
the model's directory branch has no populate arm.  The known-directory case
inlines the recursive `update_folder` body (lines 347-499).  The file
branch's `expect`s (metadata, `getFile`) are assumed to succeed.  Unlike
updater.rs, this version has no deletion phase for unseen remote
entries. -/
def updateEntryM (pol : Policy) (threshold : Nat) (e : LEntry)
    (rf : RFolderT) (nid : Nat) : Option (List Call × Nat) :=
  match e with
  | .dir n sub =>
    match lookupFolder rf.subs n with
    | none => none
    | some sf =>
      match updateEntriesM pol threshold sub sf nid with
      | none => none
      | some (t, nid1) =>
        some (Call.getSubFolders sf.id :: Call.getFolderFiles sf.id :: t, nid1)
  | .file n ext mt rOk tree cOk =>
    match lookupFile rf.files n with
    | some f => some (handleKnownFileM pol f ext mt rOk tree threshold nid)
    | none => some (processFileM pol n ext rOk tree cOk rf.id false nid).1

/-- The entry loop of main.rs `update_folder`: a panic (`none`) in any
entry propagates out of the `par_iter`. -/
def updateEntriesM (pol : Policy) (threshold : Nat) (es : List LEntry)
    (rf : RFolderT) (nid : Nat) : Option (List Call × Nat) :=
  match es with
  | [] => some ([], nid)
  | e :: rest =>
    match updateEntryM pol threshold e rf nid with
    | none => none
    | some (t1, nid1) =>
      match updateEntriesM pol threshold rest rf nid1 with
      | none => none
      | some (t2, nid2) => some (t1 ++ t2, nid2)
end

/-- Model of `update_folder` in main.rs (lines 338-500): list the remote
subfolders and files, then run the entry loop; `none` models a panic. -/
def updateFolderM (pol : Policy) (threshold : Nat) (es : List LEntry)
    (rf : RFolderT) (nid : Nat) : Option (List Call × Nat) :=
  match updateEntriesM pol threshold es rf nid with
  | none => none
  | some (t, nid1) =>
    some (Call.getSubFolders rf.id :: Call.getFolderFiles rf.id :: t, nid1)

mutual
/-- Every local subdirectory's name, recursively, is known to the remote
subfolder map of the corresponding level. -/
def allDirsKnownEntry : LEntry → RFolderT → Bool
  | .dir n sub, rf =>
    (match lookupFolder rf.subs n with
     | none => false
     | some sf => allDirsKnownM sub sf)
  | .file _ _ _ _ _ _, _ => true

def allDirsKnownM : List LEntry → RFolderT → Bool
  | [], _ => true
  | e :: rest, rf => allDirsKnownEntry e rf && allDirsKnownM rest rf
end

/-! ## Observables and spec-side predicates -/

/-- Whether `ingest_entities`' pre-creation pass creates a super entity for
this node: the RAW-extension policy list exists, has an element other than
"ALL", and contains the node's kind. -/
def prePassCreates (pol : Policy) (ext : String) (c : TSNode) : Bool :=
  match policyGet pol ext with
  | none => false
  | some types => types.any (fun s => !(s == "ALL")) && types.any (fun s => s == c.kind)

/-- Whether `process_entity` materializes this node when called on it
directly: not the Python block-flattening case, and the kind retained
under the NORMALIZED-extension policy. -/
def topCreates (pol : Policy) (ext : String) (c : TSNode) : Bool :=
  match c with
  | .mk kind _ _ cs =>
    if ext == "py" && kind == "block" && !cs.isEmpty then false
    else
      match policyGet pol (normalizeExt ext) with
      | none => false
      | some types => retains types kind

/-- The super-entity orders a top-level sibling group should receive
according to the shared-counter schedule: the i-th sibling (0-based) is
handed `ord + i`, and contributes it once per pass (pre-creation pass
and/or `process_entity`) in which it is created. -/
def superOrdersByIndex (pol : Policy) (ext : String) : List TSNode → Nat → List Nat
  | [], _ => []
  | c :: rest, ord =>
    ((if prePassCreates pol ext c then [ord] else []) ++
      (if topCreates pol ext c then [ord] else [])) ++
      superOrdersByIndex pol ext rest (ord + 1)

/-- Orders carried by `createSubEntity` calls whose parent id is `pid` —
the direct creates of the sibling group under `pid` (reparented
Python-block children included, since the source reparents them onto the
same parent id). -/
def subOrdersFor (pid : String) (t : List Call) : List Nat :=
  t.filterMap fun c => match c with
    | .createSubEntity p _ _ _ o => if p == pid then some o else none
    | _ => none

mutual
/-- The orders one nested sibling contributes to its own parent id under
the shared-counter schedule: a retained node contributes the order it
drew; a flattened Python block contributes its children's freshly scoped
1.. orders (they are reparented onto the same parent id); a pruned node
contributes nothing — but it has still consumed its order value. -/
def nodeSubOrders (pol : Policy) (ext : String) : TSNode → Nat → List Nat
  | .mk kind _ _ cs, ord =>
    if ext == "py" && kind == "block" && !cs.isEmpty then
      groupSubOrders pol ext cs 1
    else
      match policyGet pol (normalizeExt ext) with
      | none => []
      | some types => if retains types kind then [ord] else []

/-- The orders a nested sibling group's direct creates should carry: the
i-th sibling (0-based) is handed `ord + i`. -/
def groupSubOrders (pol : Policy) (ext : String) : List TSNode → Nat → List Nat
  | [], _ => []
  | c :: rest, ord => nodeSubOrders pol ext c ord ++ groupSubOrders pol ext rest (ord + 1)
end

/-- Kinds of the entities a trace creates. -/
def createdKinds (t : List Call) : List String :=
  t.filterMap fun c => match c with
    | .createSuperEntity _ k _ _ _ => some k
    | .createSubEntity _ k _ _ _ => some k
    | _ => none

/-- Whether a trace contains any folder-creation call. -/
def hasFolderCreate (t : List Call) : Bool :=
  t.any fun c => match c with
    | .createSuperFolder _ _ => true
    | .createSubFolder _ _ => true
    | _ => false

mutual
/-- Every "block"-kinded node in the tree has at least one child. -/
def blocksNonempty : TSNode → Bool
  | .mk kind _ _ cs => (!(kind == "block") || !cs.isEmpty) && blocksNonemptyList cs

def blocksNonemptyList : List TSNode → Bool
  | [] => true
  | c :: rest => blocksNonempty c && blocksNonemptyList rest
end

/-! ## Helper lemmas -/

theorem superOrders_append (a b : List Call) :
    superOrders (a ++ b) = superOrders a ++ superOrders b :=
  List.filterMap_append ..

mutual
/-- `process_entity` with `is_super = false` never issues a
`createSuperEntity` call anywhere in its subtree. -/
theorem superOrders_processEntity_sub (pol : Policy) (ext : String) (node : TSNode)
    (pid : String) (ord nid : Nat) :
    superOrders (processEntity pol ext node pid false ord nid).1 = [] := by
  match node with
  | .mk kind s e cs =>
    rw [processEntity]
    by_cases h1 : (ext == "py" && kind == "block" && !cs.isEmpty) = true
    · rw [if_pos h1]
      exact superOrders_processSiblings pol ext cs pid 1 nid
    · rw [if_neg h1]
      cases hpol : policyGet pol (normalizeExt ext) with
      | none => rfl
      | some types =>
        dsimp only
        by_cases h2 : retains types kind = true
        · rw [if_pos h2]
          rcases hs : processSiblings pol ext cs (freshId nid) 1 (nid + 1) with ⟨t, nid1⟩
          have es := superOrders_processSiblings pol ext cs (freshId nid) 1 (nid + 1)
          rw [hs] at es
          simpa [superOrders, List.filterMap_cons] using es
        · rw [if_neg h2]
          rfl

theorem superOrders_processSiblings (pol : Policy) (ext : String) (cs : List TSNode)
    (pid : String) (ord nid : Nat) :
    superOrders (processSiblings pol ext cs pid ord nid).1 = [] := by
  match cs with
  | [] => rfl
  | c :: rest =>
    rw [processSiblings]
    rcases h1 : processEntity pol ext c pid false ord nid with ⟨t1, nid1⟩
    rcases h2 : processSiblings pol ext rest pid (ord + 1) nid1 with ⟨t2, nid2⟩
    have e1 := superOrders_processEntity_sub pol ext c pid ord nid
    have e2 := superOrders_processSiblings pol ext rest pid (ord + 1) nid1
    rw [h1] at e1
    rw [h2] at e2
    dsimp only
    rw [h2]
    simp only [superOrders_append]
    simp [show superOrders t1 = [] from by simpa using e1,
      show superOrders t2 = [] from by simpa using e2]
end

theorem createdKinds_append (a b : List Call) :
    createdKinds (a ++ b) = createdKinds a ++ createdKinds b :=
  List.filterMap_append ..

theorem superOrders_prePass (pol : Policy) (ext : String) (c : TSNode) (fid : String)
    (ord nid : Nat) :
    superOrders (prePass pol ext c fid ord nid).1
      = if prePassCreates pol ext c then [ord] else [] := by
  unfold prePass prePassCreates
  cases hpol : policyGet pol ext with
  | none => rfl
  | some types =>
    dsimp only
    by_cases h : (types.any (fun s => !(s == "ALL")) && types.any (fun s => s == c.kind)) = true
    · rw [if_pos h, if_pos h]
      rfl
    · rw [if_neg h, if_neg h]
      rfl

theorem superOrders_processEntity_top (pol : Policy) (ext : String) (c : TSNode)
    (fid : String) (ord nid : Nat) :
    superOrders (processEntity pol ext c fid true ord nid).1
      = if topCreates pol ext c then [ord] else [] := by
  match c with
  | .mk kind s e cs =>
    rw [processEntity]
    unfold topCreates
    by_cases h1 : (ext == "py" && kind == "block" && !cs.isEmpty) = true
    · rw [if_pos h1]
      simp only [h1, if_true]
      simp [superOrders_processSiblings]
    · rw [if_neg h1]
      simp only [eq_false_of_ne_true (fun hh => h1 hh), Bool.false_eq_true, if_false]
      cases hpol : policyGet pol (normalizeExt ext) with
      | none => rfl
      | some types =>
        dsimp only
        by_cases h2 : retains types kind = true
        · rw [if_pos h2]
          simp only [h2, if_true]
          rcases hs : processSiblings pol ext cs (freshId nid) 1 (nid + 1) with ⟨t, nid1⟩
          have es := superOrders_processSiblings pol ext cs (freshId nid) 1 (nid + 1)
          rw [hs] at es
          simp only [superOrders, List.filterMap_cons] at es ⊢
          simpa using es
        · rw [if_neg h2]
          simp only [eq_false_of_ne_true h2, Bool.false_eq_true, if_false]
          rfl

/-- The shared-counter characterization of `ingest_entities`: the super
entities created for a top-level sibling group carry exactly the orders
predicted by `superOrdersByIndex` — the i-th child (0-based) is handed
`ord + i`, retained or not. -/
theorem superOrders_ingestSiblings (pol : Policy) (ext : String) (fid : String)
    (cs : List TSNode) (ord nid : Nat) :
    superOrders (ingestSiblings pol ext fid cs ord nid).1
      = superOrdersByIndex pol ext cs ord := by
  induction cs generalizing ord nid with
  | nil => rfl
  | cons c rest ih =>
    rw [ingestSiblings, superOrdersByIndex]
    rcases h0 : prePass pol ext c fid ord nid with ⟨t0, nid0⟩
    rcases h1 : processEntity pol ext c fid true ord nid0 with ⟨t1, nid1⟩
    rcases h2 : ingestSiblings pol ext fid rest (ord + 1) nid1 with ⟨t2, nid2⟩
    have e0 := superOrders_prePass pol ext c fid ord nid
    have e1 := superOrders_processEntity_top pol ext c fid ord nid0
    have e2 := ih (ord + 1) nid1
    rw [h0] at e0
    rw [h1] at e1
    rw [h2] at e2
    dsimp only
    rw [h1, h2]
    simp only [superOrders_append]
    simp only [superOrders] at e0 e1 e2 ⊢
    rw [e0, e1, e2, List.append_assoc]

theorem subOrdersFor_append (pid : String) (a b : List Call) :
    subOrdersFor pid (a ++ b) = subOrdersFor pid a ++ subOrdersFor pid b :=
  List.filterMap_append ..

/-- A string that does not start with the model's fresh-id marker is never
a server-assigned id. -/
theorem ne_freshId_of_head (s : String) (h : s.data.head? ≠ some '#') (k : Nat) :
    s ≠ freshId k := by
  intro he
  exact h (he ▸ rfl)

mutual
/-- Processing a sibling group under parent `q` contributes no
`createSubEntity` call whose parent is a DIFFERENT id `pid` (distinct from
every fresh id): deeper creates carry fresh ids. -/
theorem subOrdersFor_processEntity_other (pol : Policy) (ext : String) (node : TSNode)
    (q pid : String) (ord nid : Nat) (hq : pid ≠ q) (h : ∀ k, pid ≠ freshId k) :
    subOrdersFor pid (processEntity pol ext node q false ord nid).1 = [] := by
  match node with
  | .mk kind s e cs =>
    rw [processEntity]
    by_cases h1 : (ext == "py" && kind == "block" && !cs.isEmpty) = true
    · rw [if_pos h1]
      exact subOrdersFor_processSiblings_other pol ext cs q pid 1 nid hq h
    · rw [if_neg h1]
      cases hpol : policyGet pol (normalizeExt ext) with
      | none => rfl
      | some types =>
        dsimp only
        by_cases h2 : retains types kind = true
        · rw [if_pos h2]
          rcases hs : processSiblings pol ext cs (freshId nid) 1 (nid + 1) with ⟨t, nid1⟩
          have es := subOrdersFor_processSiblings_other pol ext cs (freshId nid) pid 1
            (nid + 1) (h nid) h
          rw [hs] at es
          have hqe : (q == pid) = false := beq_eq_false_iff_ne.mpr (Ne.symm hq)
          simp only [subOrdersFor, List.filterMap_cons] at es ⊢
          simpa [hqe] using es
        · rw [if_neg h2]
          rfl

theorem subOrdersFor_processSiblings_other (pol : Policy) (ext : String) (cs : List TSNode)
    (q pid : String) (ord nid : Nat) (hq : pid ≠ q) (h : ∀ k, pid ≠ freshId k) :
    subOrdersFor pid (processSiblings pol ext cs q ord nid).1 = [] := by
  match cs with
  | [] => rfl
  | c :: rest =>
    rw [processSiblings]
    rcases h1 : processEntity pol ext c q false ord nid with ⟨t1, nid1⟩
    rcases h2 : processSiblings pol ext rest q (ord + 1) nid1 with ⟨t2, nid2⟩
    have e1 := subOrdersFor_processEntity_other pol ext c q pid ord nid hq h
    have e2 := subOrdersFor_processSiblings_other pol ext rest q pid (ord + 1) nid1 hq h
    rw [h1] at e1
    rw [h2] at e2
    dsimp only
    rw [h2]
    simp only [subOrdersFor_append]
    simp [show subOrdersFor pid t1 = [] from by simpa using e1,
      show subOrdersFor pid t2 = [] from by simpa using e2]
end

mutual
/-- The nested-group analogue of the top-level characterization: provided
the group's parent id `pid` collides with no fresh id, the
`createSubEntity` calls carrying `pid` are exactly the ones
`nodeSubOrders` predicts for this node at its drawn order. -/
theorem subOrdersFor_processEntity_self (pol : Policy) (ext : String) (node : TSNode)
    (pid : String) (ord nid : Nat) (h : ∀ k, pid ≠ freshId k) :
    subOrdersFor pid (processEntity pol ext node pid false ord nid).1
      = nodeSubOrders pol ext node ord := by
  match node with
  | .mk kind s e cs =>
    rw [processEntity, nodeSubOrders]
    by_cases h1 : (ext == "py" && kind == "block" && !cs.isEmpty) = true
    · rw [if_pos h1, if_pos h1]
      exact subOrdersFor_processSiblings_self pol ext cs pid 1 nid h
    · rw [if_neg h1, if_neg h1]
      cases hpol : policyGet pol (normalizeExt ext) with
      | none => rfl
      | some types =>
        dsimp only
        by_cases h2 : retains types kind = true
        · rw [if_pos h2, if_pos h2]
          rcases hs : processSiblings pol ext cs (freshId nid) 1 (nid + 1) with ⟨t, nid1⟩
          have es := subOrdersFor_processSiblings_other pol ext cs (freshId nid) pid 1
            (nid + 1) (h nid) h
          rw [hs] at es
          simp only [subOrdersFor, List.filterMap_cons] at es ⊢
          simpa using es
        · rw [if_neg h2, if_neg h2]
          rfl

theorem subOrdersFor_processSiblings_self (pol : Policy) (ext : String) (cs : List TSNode)
    (pid : String) (ord nid : Nat) (h : ∀ k, pid ≠ freshId k) :
    subOrdersFor pid (processSiblings pol ext cs pid ord nid).1
      = groupSubOrders pol ext cs ord := by
  match cs with
  | [] => rfl
  | c :: rest =>
    rw [processSiblings, groupSubOrders]
    rcases h1 : processEntity pol ext c pid false ord nid with ⟨t1, nid1⟩
    rcases h2 : processSiblings pol ext rest pid (ord + 1) nid1 with ⟨t2, nid2⟩
    have e1 := subOrdersFor_processEntity_self pol ext c pid ord nid h
    have e2 := subOrdersFor_processSiblings_self pol ext rest pid (ord + 1) nid1 h
    rw [h1] at e1
    rw [h2] at e2
    dsimp only
    rw [h2]
    simp only [subOrdersFor_append]
    rw [show subOrdersFor pid t1 = nodeSubOrders pol ext c ord from by simpa using e1,
      show subOrdersFor pid t2 = groupSubOrders pol ext rest (ord + 1) from by simpa using e2]
end

mutual
/-- Entity extraction on a Python file never creates an entity of kind
"block" as long as every "block" node in the input has at least one
child. -/
theorem noBlock_processEntity (pol : Policy) (node : TSNode) (pid : String)
    (sup : Bool) (ord nid : Nat) (h : blocksNonempty node = true) :
    "block" ∉ createdKinds (processEntity pol "py" node pid sup ord nid).1 := by
  match node with
  | .mk kind s e cs =>
    rw [blocksNonempty, Bool.and_eq_true] at h
    obtain ⟨hk, hcs⟩ := h
    rw [processEntity]
    by_cases h1 : (("py" : String) == "py" && kind == "block" && !cs.isEmpty) = true
    · rw [if_pos h1]
      exact noBlock_processSiblings pol cs pid 1 nid hcs
    · rw [if_neg h1]
      cases hpol : policyGet pol (normalizeExt "py") with
      | none => simp [createdKinds]
      | some types =>
        dsimp only
        by_cases h2 : retains types kind = true
        · rw [if_pos h2]
          rcases hs : processSiblings pol "py" cs (freshId nid) 1 (nid + 1) with ⟨t, nid1⟩
          have hrest := noBlock_processSiblings pol cs (freshId nid) 1 (nid + 1) hcs
          rw [hs] at hrest
          have hkind : kind ≠ "block" := by
            intro hb
            subst hb
            simp only [Bool.not_eq_true] at h1
            rw [Bool.or_eq_true] at hk
            rcases hk with hk1 | hk2
            · simp at hk1
            · simp only [hk2, Bool.and_true, beq_self_eq_true, Bool.and_self] at h1
              simp [hk2] at h1
          cases sup <;>
            simpa [createdKinds, List.filterMap_cons, Ne.symm hkind] using hrest
        · rw [if_neg h2]
          simp [createdKinds]

theorem noBlock_processSiblings (pol : Policy) (cs : List TSNode) (pid : String)
    (ord nid : Nat) (h : blocksNonemptyList cs = true) :
    "block" ∉ createdKinds (processSiblings pol "py" cs pid ord nid).1 := by
  match cs with
  | [] => simp [processSiblings, createdKinds]
  | c :: rest =>
    rw [blocksNonemptyList, Bool.and_eq_true] at h
    obtain ⟨hc, hrest⟩ := h
    rw [processSiblings]
    rcases h1 : processEntity pol "py" c pid false ord nid with ⟨t1, nid1⟩
    rcases h2 : processSiblings pol "py" rest pid (ord + 1) nid1 with ⟨t2, nid2⟩
    have e1 := noBlock_processEntity pol c pid false ord nid hc
    have e2 := noBlock_processSiblings pol rest pid (ord + 1) nid1 hrest
    rw [h1] at e1
    rw [h2] at e2
    dsimp only
    rw [h2]
    simp only [createdKinds_append, List.mem_append]
    rintro (hl | hr)
    · exact e1 hl
    · exact e2 hr
end

mutual
/-- main.rs `update_folder`'s entry handler completes (does not panic)
exactly when every local subdirectory, recursively, is known remotely. -/
theorem isSome_updateEntryM (pol : Policy) (th : Nat) (e : LEntry) (rf : RFolderT)
    (nid : Nat) :
    (updateEntryM pol th e rf nid).isSome = allDirsKnownEntry e rf := by
  match e with
  | .dir n sub =>
    rw [updateEntryM, allDirsKnownEntry]
    cases hl : lookupFolder rf.subs n with
    | none => rfl
    | some sf =>
      dsimp only
      rcases hs : updateEntriesM pol th sub sf nid with _ | ⟨t, nid1⟩
      · have := isSome_updateEntriesM pol th sub sf nid
        rw [hs] at this
        simpa using this.symm
      · have := isSome_updateEntriesM pol th sub sf nid
        rw [hs] at this
        simpa using this.symm
  | .file n ext mt rOk tree cOk =>
    rw [updateEntryM, allDirsKnownEntry]
    cases hl : lookupFile rf.files n <;> rfl

theorem isSome_updateEntriesM (pol : Policy) (th : Nat) (es : List LEntry)
    (rf : RFolderT) (nid : Nat) :
    (updateEntriesM pol th es rf nid).isSome = allDirsKnownM es rf := by
  match es with
  | [] => rfl
  | e :: rest =>
    rw [updateEntriesM, allDirsKnownM]
    rcases he : updateEntryM pol th e rf nid with _ | ⟨t1, nid1⟩
    · have h1 := isSome_updateEntryM pol th e rf nid
      rw [he] at h1
      simp [← h1]
    · have h1 := isSome_updateEntryM pol th e rf nid
      rw [he] at h1
      rcases hr : updateEntriesM pol th rest rf nid1 with _ | ⟨t2, nid2⟩
      · have h2 := isSome_updateEntriesM pol th rest rf nid1
        rw [hr] at h2
        dsimp only
        rw [hr]
        simp [← h1, ← h2]
      · have h2 := isSome_updateEntriesM pol th rest rf nid1
        rw [hr] at h2
        dsimp only
        rw [hr]
        simp [← h1, ← h2]
end

/-! ## Claims -/

/-- C1 counterexample: with policy `{"py": ["function_definition"]}` and a
sibling group `[comment, function_definition]`, exactly one sibling passes
the retention filter (N = 1), yet the orders assigned to the created
entities are `[2, 2]` and the value 1 is never assigned: the skipped
`comment` consumed order 1, so the retained orders are not `{1,...,N}`. -/
theorem C1_counterexample :
    (List.filter (topCreates [("py", ["function_definition"])] "py")
      [TSNode.mk "comment" 0 5 [], TSNode.mk "function_definition" 6 20 []]).length = 1
    ∧ superOrders (ingestSiblings [("py", ["function_definition"])] "py" "F"
        [TSNode.mk "comment" 0 5 [], TSNode.mk "function_definition" 6 20 []] 1 0).1 = [2, 2]
    ∧ 1 ∉ superOrders (ingestSiblings [("py", ["function_definition"])] "py" "F"
        [TSNode.mk "comment" 0 5 [], TSNode.mk "function_definition" 6 20 []] 1 0).1 :=
  ⟨rfl, rfl, by decide⟩

/-- C1 (amended): within ANY sibling group — a file's top-level children
in `ingest_entities` AND a materialized entity's children in
`process_entity` — order values are drawn from the shared counter by EVERY
sibling in processing order: the i-th sibling receives `ord + i` whether
or not it passes the retention filter, so the created entities carry
exactly the by-index orders (`superOrdersByIndex` for the top-level
group's `createSuperEntity` calls, `groupSubOrders` for a nested group's
`createSubEntity` calls under its parent id), with gaps where siblings
were filtered out: skipped siblings do consume order values.  The nested
statement assumes the group's parent id collides with no server-assigned
fresh id, which separates the group's direct creates from deeper ones. -/
theorem C1_order_by_shared_counter :
    (∀ (pol : Policy) (ext fid : String) (cs : List TSNode) (ord nid : Nat),
      superOrders (ingestSiblings pol ext fid cs ord nid).1
        = superOrdersByIndex pol ext cs ord)
    ∧ (∀ (pol : Policy) (ext : String) (cs : List TSNode) (pid : String) (ord nid : Nat),
      (∀ k, pid ≠ freshId k) →
      subOrdersFor pid (processSiblings pol ext cs pid ord nid).1
        = groupSubOrders pol ext cs ord) :=
  ⟨fun pol ext fid cs ord nid => superOrders_ingestSiblings pol ext fid cs ord nid,
   fun pol ext cs pid ord nid h => subOrdersFor_processSiblings_self pol ext cs pid ord nid h⟩

/-- C1 witness: the nested sibling group `[comment, function_definition]`
under parent id "E" (not a fresh id) receives direct-create orders `[2]` —
order 1 was consumed by the skipped comment. -/
theorem C1_witness :
    superOrders (ingestSiblings [("py", ["function_definition"])] "py" "F"
        [TSNode.mk "comment" 0 5 [], TSNode.mk "function_definition" 6 20 []] 1 0).1
      = superOrdersByIndex [("py", ["function_definition"])] "py"
        [TSNode.mk "comment" 0 5 [], TSNode.mk "function_definition" 6 20 []] 1
    ∧ subOrdersFor "E" (processSiblings [("py", ["function_definition"])] "py"
        [TSNode.mk "comment" 0 5 [], TSNode.mk "function_definition" 6 20 []] "E" 1 0).1
      = groupSubOrders [("py", ["function_definition"])] "py"
        [TSNode.mk "comment" 0 5 [], TSNode.mk "function_definition" 6 20 []] 1 :=
  ⟨C1_order_by_shared_counter.1 [("py", ["function_definition"])] "py" "F"
    [TSNode.mk "comment" 0 5 [], TSNode.mk "function_definition" 6 20 []] 1 0,
   C1_order_by_shared_counter.2 [("py", ["function_definition"])] "py"
    [TSNode.mk "comment" 0 5 [], TSNode.mk "function_definition" 6 20 []] "E" 1 0
    (ne_freshId_of_head "E" (by decide))⟩

/-- The retention policy of the C2 scenario. -/
def pyScenarioPolicy : Policy := [("py", ["function_definition", "class_definition"])]

/-- Parse tree of a Python file with one top-level function and one
top-level class. -/
def pyScenarioChildren : List TSNode :=
  [TSNode.mk "function_definition" 0 30
    [TSNode.mk "def" 0 3 [], TSNode.mk "identifier" 4 7 [], TSNode.mk "parameters" 7 9 [],
     TSNode.mk ":" 9 10 [],
     TSNode.mk "block" 15 30 [TSNode.mk "expression_statement" 15 30 [TSNode.mk "call" 15 30 []]]],
   TSNode.mk "class_definition" 31 60
    [TSNode.mk "class" 31 36 [], TSNode.mk "identifier" 37 40 [], TSNode.mk ":" 40 41 [],
     TSNode.mk "block" 46 60 [TSNode.mk "pass_statement" 46 50 []]]]

/-- The calls `ingest_entities` issues for the C2 scenario file. -/
def pyScenarioTrace : List Call :=
  (ingestSiblings pyScenarioPolicy "py" "F" pyScenarioChildren 1 0).1

/-- C2 counterexample: in the scenario (policy
`{"py": ["function_definition", "class_definition"]}`, one top-level
function and one top-level class), the number of `createSuperEntity` calls
is NOT 2, and no embedding job is submitted for any entity (every
submission site in the source is commented out). -/
theorem C2_counterexample :
    superCreateCount pyScenarioTrace ≠ 2 ∧ embedJobs pyScenarioTrace = [] :=
  ⟨by decide, rfl⟩

/-- C2 (amended): the scenario issues exactly 4 `createSuperEntity` calls —
each of the two retained top-level nodes is created twice with the same
order value (once by the pre-creation pass of `ingest_entities` and once
again by `process_entity`), so the orders are `[1, 1, 2, 2]` — and zero
embedding jobs are submitted. -/
theorem C2_four_creates_no_embeds :
    superCreateCount pyScenarioTrace = 4
    ∧ superOrders pyScenarioTrace = [1, 1, 2, 2]
    ∧ embedJobs pyScenarioTrace = [] :=
  ⟨rfl, rfl, rfl⟩

/-- C3 counterexample: deleting a file with one entity that has one
sub-entity issues `deleteFile` FIRST — at the head of the trace — and only
then deletes the entities, contradicting the claim that all entities are
deleted before the `deleteFile` call. -/
theorem C3_counterexample :
    deleteFileTrace ⟨"f", "a.py", 0, [REnt.mk "e" [REnt.mk "s" []]]⟩
      = [Call.deleteFile "f", Call.getFileEntities "f", Call.getSubEntities "e",
         Call.getSubEntities "s", Call.deleteSubEntity "s", Call.deleteSuperEntity "e"]
    ∧ (deleteFileTrace ⟨"f", "a.py", 0, [REnt.mk "e" [REnt.mk "s" []]]⟩).head?
        = some (Call.deleteFile "f") :=
  ⟨rfl, rfl⟩

/-- C3 (amended): cascading deletion is depth-first for folders and for
entity subtrees — a folder's own record is the LAST call of its cascade,
and an entity's own delete follows its sub-entity cascade — but for files
the `deleteFile` call is the FIRST call, issued before the file's entities
are deleted. -/
theorem C3_deletion_order :
    (∀ fi : RFileT, (deleteFileTrace fi).head? = some (Call.deleteFile fi.id))
    ∧ (∀ fo : RFolderT, (deleteFolderTrace fo).getLast? = some (Call.deleteFolder fo.id))
    ∧ (∀ e : REnt, (delEntitiesSub e ++ [Call.deleteSubEntity e.id]).getLast?
        = some (Call.deleteSubEntity e.id)) := by
  refine ⟨fun fi => rfl, fun fo => ?_, fun e => by simp⟩
  cases fo with
  | mk i n subs files =>
    show (Call.getSubFolders i :: (deleteFolderList subs ++
        (Call.getFolderFiles i :: (files.map deleteFileTrace).flatten ++
          [Call.deleteFolder i]))).getLast? = some (Call.deleteFolder i)
    have e : Call.getSubFolders i :: (deleteFolderList subs ++
        (Call.getFolderFiles i :: (files.map deleteFileTrace).flatten ++
          [Call.deleteFolder i]))
        = (Call.getSubFolders i :: (deleteFolderList subs ++
            Call.getFolderFiles i :: (files.map deleteFileTrace).flatten)) ++
          [Call.deleteFolder i] := by
      simp
    rw [e, List.getLast?_concat]

/-- Local state of the C4 counterexample: one subdirectory `d`, unknown
remotely, containing one file `x`. -/
def c4Local : List LEntry := [LEntry.dir "d" [LEntry.file "x" "txt" none true [] true]]

/-- Remote state of the C4 counterexample: root `r` with no folders and no
files. -/
def c4Remote : RemoteRoot := ⟨some "r", "R", [], []⟩

/-- The update trace of the C4 counterexample. -/
def c4Trace : List Call := (updateU [] "r" c4Local c4Remote 5 0).1

/-- C4 counterexample: updating with a local subdirectory `d` unknown
remotely creates NO folder record at all; `populate` runs rooted at the
EXISTING root id, so `d`'s file is created directly under the root — the
claim's "newly created folder" never exists. -/
theorem C4_counterexample :
    c4Trace = [Call.getRootById "R", Call.getRootFolders "R", Call.getRootFiles "R",
               Call.createSuperFile "x" "txt" "R"]
    ∧ hasFolderCreate c4Trace = false
    ∧ Call.createSuperFile "x" "txt" "R" ∈ c4Trace :=
  ⟨rfl, rfl, by decide⟩

/-- C4 (amended): for EVERY local subdirectory whose name is not among the
remote parent's known folder names — at the root level of `update`
(updater.rs line 92) and inside `update_folder` (line 219), whatever other
folders or files the remote parent knows — no folder record is created
first; the Tree Walker (`populate`) is run over the subdirectory's
CONTENTS rooted at the EXISTING parent's id (root level with
`is_super = true`, folder level with `is_super = false`), so those
contents become children of the existing parent.  The third conjunct shows
the handler inside a full `update` run. -/
theorem C4_populate_at_existing_parent :
    (∀ (pol : Policy) (th : Nat) (n : String) (sub : List LEntry)
        (rem : RemoteRoot) (nid : Nat),
      lookupFolder rem.folders n = none →
      updateRootEntry pol th (LEntry.dir n sub) rem nid
        = populateEntries pol sub rem.rootId true nid)
    ∧ (∀ (pol : Policy) (th : Nat) (n : String) (sub : List LEntry)
        (rf : RFolderT) (nid : Nat),
      lookupFolder rf.subs n = none →
      updateEntryU pol th (LEntry.dir n sub) rf nid
        = populateEntries pol sub rf.id false nid)
    ∧ (∀ (pol : Policy) (L R n : String) (sub : List LEntry) (th nid : Nat),
      updateU pol L [LEntry.dir n sub] ⟨some L, R, [], []⟩ th nid
        = (Call.getRootById R :: Call.getRootFolders R :: Call.getRootFiles R ::
            (populateEntries pol sub R true nid).1, Except.ok ())) := by
  refine ⟨?_, ?_, ?_⟩
  · intro pol th n sub rem nid hl
    rw [updateRootEntry, hl]
  · intro pol th n sub rf nid hl
    rw [updateEntryU, hl]
  · intro pol L R n sub th nid
    rcases hp : populateEntries pol sub R true nid with ⟨t, nid1⟩
    rw [updateU]
    dsimp only
    simp [updateRootEntries, updateRootEntry, lookupFolder, hp, deleteFolderList]

/-- C4 witness: exercises both levels' unknown-subdirectory hypothesis —
at the root with the counterexample remote, and inside a folder that DOES
know another subfolder ("other") but not the local one ("d"). -/
theorem C4_witness :
    updateRootEntry [] 5 (LEntry.dir "d" [LEntry.file "x" "txt" none true [] true])
        c4Remote 0
      = populateEntries [] [LEntry.file "x" "txt" none true [] true] "R" true 0
    ∧ updateEntryU [] 5 (LEntry.dir "d" [])
        (RFolderT.mk "P" "pname" [RFolderT.mk "Q" "other" [] []] []) 0
      = populateEntries [] [] "P" false 0 :=
  ⟨C4_populate_at_existing_parent.1 [] 5 "d" [LEntry.file "x" "txt" none true [] true]
     c4Remote 0 rfl,
   C4_populate_at_existing_parent.2.1 [] 5 "d" []
     (RFolderT.mk "P" "pname" [RFolderT.mk "Q" "other" [] []] []) 0 rfl⟩

/-- C5 counterexample: for a Python file with policy `{"py": ["ALL"]}`, a
"block" node with ZERO children IS materialized — a create-entity call with
kind "block" is issued — because the flattening special case requires at
least one child. -/
theorem C5_counterexample :
    processEntity [("py", ["ALL"])] "py" (TSNode.mk "block" 4 9 []) "p" false 3 0
      = ([Call.createSubEntity "p" "block" 4 9 3], 1) :=
  rfl

/-- C5 (amended): for Python, a "block" node with at least one child is
never materialized — its children are processed one level up into the
block's would-be parent with a freshly scoped 1..N order counter — and
consequently, on any tree in which every "block" node has at least one
child, no created entity has kind "block"; a zero-children "block" falls
through to the general path and is materialized when retained. -/
theorem C5_nonempty_blocks_flattened :
    (∀ (pol : Policy) (pid : String) (sup : Bool) (ord nid s e : Nat)
        (c : TSNode) (cs : List TSNode),
      processEntity pol "py" (TSNode.mk "block" s e (c :: cs)) pid sup ord nid
        = processSiblings pol "py" (c :: cs) pid 1 nid)
    ∧ (∀ (pol : Policy) (node : TSNode) (pid : String) (sup : Bool) (ord nid : Nat),
        blocksNonempty node = true →
        "block" ∉ createdKinds (processEntity pol "py" node pid sup ord nid).1) :=
  ⟨fun _pol _pid _sup _ord _nid _s _e _c _cs => rfl,
   fun pol node pid sup ord nid h => noBlock_processEntity pol node pid sup ord nid h⟩

/-- C5 witness. -/
theorem C5_witness :
    processEntity [] "py" (TSNode.mk "block" 0 2 [TSNode.mk "pass_statement" 0 2 []]) "p"
        false 1 0
      = processSiblings [] "py" [TSNode.mk "pass_statement" 0 2 []] "p" 1 0
    ∧ "block" ∉ createdKinds (processEntity [("py", ["ALL"])] "py"
        (TSNode.mk "function_definition" 0 30
          [TSNode.mk "block" 15 30 [TSNode.mk "pass_statement" 15 20 []]]) "F" true 1 0).1 :=
  ⟨C5_nonempty_blocks_flattened.1 [] "p" false 1 0 0 2 (TSNode.mk "pass_statement" 0 2 []) [],
   C5_nonempty_blocks_flattened.2 [("py", ["ALL"])]
     (TSNode.mk "function_definition" 0 30
       [TSNode.mk "block" 15 30 [TSNode.mk "pass_statement" 15 20 []]]) "F" true 1 0 rfl⟩

/-- The remote file of the C6 counterexample: extension-less policy
irrelevant; `n.txt` is an unsupported extension. -/
def c6File : RFileT := ⟨"f1", "n.txt", 0, [REnt.mk "e" []]⟩

/-- C6 counterexample: a remotely known `.txt` file whose modification time
(100 s) exceeds `extracted_at` (0 s) by more than the threshold (5 s) is
NOT fully re-extracted: the `updateFile` call carries no `extracted_at`
(flag `false`, updater.rs line 356) and no entity extraction is re-run —
only the text update and the entity deletion happen. -/
theorem C6_counterexample :
    handleKnownFile [] c6File "txt" (some 100) true [] 5 0
      = ([Call.updateFile "f1" false, Call.getFileEntities "f1",
          Call.getSubEntities "e", Call.deleteSuperEntity "e"], 0)
    ∧ Call.updateFile "f1" true ∉ (handleKnownFile [] c6File "txt" (some 100) true [] 5 0).1 :=
  ⟨rfl, by decide⟩

/-- C6 (amended): a known file with available modification time is left
untouched (no calls) iff the modification time exceeds `extracted_at` by at
most the threshold (strictly-greater comparison in seconds); beyond the
threshold it is re-processed — for a parser-supported extension the remote
text AND `extracted_at` are updated, the existing entities are deleted and
extraction re-runs on the fresh parse, while for an unsupported extension
only the text is updated (no `extracted_at`) and the entities are deleted
with no re-extraction. -/
theorem C6_threshold_and_reextract (pol : Policy) (rf : RFileT) (ext : String)
    (m : Int) (tree : List TSNode) (th nid : Nat) :
    handleKnownFile pol rf ext (some m) true tree th nid
      = (if m - rf.extractedAt > (th : Int) then
          updateFileU pol rf.id ext true tree rf.ents nid else ([], nid))
    ∧ updateFileU pol rf.id ext true tree rf.ents nid
      = (if supportedExt ext then
          (Call.updateFile rf.id true ::
            (delEntitiesFile rf.id rf.ents ++ (ingestSiblings pol ext rf.id tree 1 nid).1),
           (ingestSiblings pol ext rf.id tree 1 nid).2)
         else (Call.updateFile rf.id false :: delEntitiesFile rf.id rf.ents, nid)) := by
  constructor
  · rfl
  · rw [updateFileU]
    rcases hI : ingestSiblings pol ext rf.id tree 1 nid with ⟨tI, nI⟩
    dsimp only
    by_cases h : supportedExt ext = true
    · rw [if_pos h]
      rfl
    · rw [if_neg h]
      rfl

/-- C7: when the fetched remote root name differs from the local root's
base name, `update` returns the mismatch error having issued only the
`getRootById` query — no mutating call is made, so remote state is
unchanged. -/
theorem C7_root_mismatch_aborts (pol : Policy) (localName : String) (es : List LEntry)
    (rem : RemoteRoot) (th nid : Nat) (rn : String)
    (h1 : rem.rootName = some rn) (h2 : rn ≠ localName) :
    updateU pol localName es rem th nid
      = ([Call.getRootById rem.rootId], Except.error "Root name does not match")
    ∧ ∀ c ∈ (updateU pol localName es rem th nid).1, c.isMutating = false := by
  have hb : (rn == localName) = false := beq_eq_false_iff_ne.mpr h2
  have key : updateU pol localName es rem th nid
      = ([Call.getRootById rem.rootId], Except.error "Root name does not match") := by
    rw [updateU, h1]
    dsimp only
    rw [hb]
    rfl
  refine ⟨key, ?_⟩
  rw [key]
  intro c hc
  simp only [List.mem_singleton] at hc
  subst hc
  rfl

/-- C7 witness. -/
theorem C7_witness :
    updateU [] "b" [] ⟨some "a", "R", [], []⟩ 5 0
      = ([Call.getRootById "R"], Except.error "Root name does not match")
    ∧ ∀ c ∈ (updateU [] "b" [] ⟨some "a", "R", [], []⟩ 5 0).1, c.isMutating = false :=
  C7_root_mismatch_aborts [] "b" [] ⟨some "a", "R", [], []⟩ 5 0 "a" rfl (by decide)

/-- C8 counterexample: with policy `{"cc": [...]}` — which has NO "cpp"
key — a `.cc` file still gets a super entity created: the pre-creation pass
of `ingest_entities` consulted the RAW key "cc", not the normalized "cpp"
the claim requires (under the claim the count would be 0). -/
theorem C8_counterexample :
    policyGet [("cc", ["function_definition"])] "cpp" = none
    ∧ superCreateCount (ingestSiblings [("cc", ["function_definition"])] "cc" "F"
        [TSNode.mk "function_definition" 0 10 []] 1 0).1 = 1 :=
  ⟨rfl, rfl⟩

/-- C8 (amended): only `process_entity` normalizes the extension
(cc/cxx→cpp, h→c, js/jsx→js) before the policy lookup; the top-level
pre-creation pass of `ingest_entities` consults the RAW extension.  With
policy keyed "cpp", a `.cc` file gets exactly one super-entity create (from
`process_entity`; the pre-pass misses), while a `.cpp` file gets two (both
passes hit). -/
theorem C8_normalization_only_in_processEntity :
    (normalizeExt "cc" = "cpp" ∧ normalizeExt "cxx" = "cpp" ∧ normalizeExt "h" = "c"
      ∧ normalizeExt "js" = "js" ∧ normalizeExt "jsx" = "js")
    ∧ superCreateCount (ingestSiblings [("cpp", ["function_definition"])] "cc" "F"
        [TSNode.mk "function_definition" 0 10 []] 1 0).1 = 1
    ∧ superCreateCount (ingestSiblings [("cpp", ["function_definition"])] "cpp" "F"
        [TSNode.mk "function_definition" 0 10 []] 1 0).1 = 2 :=
  ⟨⟨rfl, rfl, rfl, rfl, rfl⟩, rfl, rfl⟩

/-- C9 counterexample: the main.rs copy of `process_file` propagates a
failed read as an error (`?` on `fs::read_to_string`, main.rs line 958)
instead of returning success as the claim states. -/
theorem C9_counterexample :
    (processFileM [] "a" "txt" false [] true "P" true 0).2 = Except.error "read failed" :=
  rfl

/-- C9 (amended): the ingestion.rs `process_file` returns success with no
calls when the read fails, and returns an error — having issued only the
create-file call — when the remote create fails; in `populate` a failing
file's error is discarded, so sibling entries are still processed (the
main.rs duplicate instead propagates the read error, though its caller
discards it too). -/
theorem C9_read_skip_create_abort :
    (∀ (pol : Policy) (n ext : String) (tree : List TSNode) (cOk : Bool)
        (pid : String) (sup : Bool) (nid : Nat),
      processFileI pol n ext false tree cOk pid sup nid = (([], nid), Except.ok ()))
    ∧ (∀ (pol : Policy) (n ext : String) (tree : List TSNode)
        (pid : String) (sup : Bool) (nid : Nat),
        processFileI pol n ext true tree false pid sup nid
          = (([if sup then Call.createSuperFile n ext pid else Call.createFile n ext pid], nid),
             Except.error "Failed to create file"))
    ∧ (populateEntries [] [LEntry.file "a" "txt" none true [] false,
         LEntry.file "b" "txt" none true [] true] "P" true 0).1
        = [Call.createSuperFile "a" "txt" "P", Call.createSuperFile "b" "txt" "P"] := by
  refine ⟨fun pol n ext tree cOk pid sup nid => rfl,
    fun pol n ext tree pid sup nid => ?_, rfl⟩
  by_cases h : supportedExt ext = true <;> simp [processFileI, h]

/-- C10: in main.rs `update_folder`, an unknown local subdirectory panics
(the map entry is unwrapped before the `contains_key` test, line 408) —
the entry loop yields `none` before the ingest branch could run — and the
function completes without panicking exactly when every local
subdirectory's name, recursively, is known remotely. -/
theorem C10_unknown_subdir_panics :
    (∀ (pol : Policy) (th : Nat) (n : String) (sub rest : List LEntry)
        (rf : RFolderT) (nid : Nat), lookupFolder rf.subs n = none →
      updateEntriesM pol th (LEntry.dir n sub :: rest) rf nid = none)
    ∧ (∀ (pol : Policy) (th : Nat) (es : List LEntry) (rf : RFolderT) (nid : Nat),
        (updateFolderM pol th es rf nid).isSome = allDirsKnownM es rf) := by
  constructor
  · intro pol th n sub rest rf nid h
    rw [updateEntriesM, updateEntryM, h]
  · intro pol th es rf nid
    rw [updateFolderM]
    rcases hs : updateEntriesM pol th es rf nid with _ | ⟨t, nid1⟩
    · have h2 := isSome_updateEntriesM pol th es rf nid
      rw [hs] at h2
      simpa using h2
    · have h2 := isSome_updateEntriesM pol th es rf nid
      rw [hs] at h2
      simpa using h2

/-- C10 witness. -/
theorem C10_witness :
    updateEntriesM [] 5 [LEntry.dir "new" []] (RFolderT.mk "fid" "fname" [] []) 0 = none
    ∧ (updateFolderM [] 5 [LEntry.dir "new" []] (RFolderT.mk "fid" "fname" [] []) 0).isSome
        = allDirsKnownM [LEntry.dir "new" []] (RFolderT.mk "fid" "fname" [] []) :=
  ⟨C10_unknown_subdir_panics.1 [] 5 "new" [] [] (RFolderT.mk "fid" "fname" [] []) 0 rfl,
   C10_unknown_subdir_panics.2 [] 5 [LEntry.dir "new" []] (RFolderT.mk "fid" "fname" [] []) 0⟩

end CodebaseIndex
